import Mathlib

/-!
Verification of the agentree multiplexer core: a shallow embedding of the
virtual terminal / ANSI parser (internal/multiplex/terminal/vt.go), the
process supervisor (internal/multiplex/process.go, events.go) and the token
tracker (internal/multiplex/token.go), together with proofs of the spec's
testable properties over it.

Modelling conventions:
* Go `int` values (dimensions, cursor coordinates, CSI parameters) are
  modelled as `Int`; Go slices as `List`.  Potential Go panics from
  out-of-range indexing never occur on the executions the theorems talk
  about, so list reads use defaulted lookups (`getD`).
* Go `rune` (int32) is modelled as `Nat`: every rune the parser ever feeds
  to `PutRune` is a byte value, hence non-negative.
* Mutexes, goroutines and wall-clock timestamps have no effect on the
  verified state and are omitted.
-/

namespace Agentree

/-! ## Virtual terminal data model (vt.go) -/

/-- Go `Color uint32` constants from vt.go (`ColorDefault Color = iota`, ...). -/
def ColorDefault : Nat := 0
def ColorBlack : Nat := 1
def ColorRed : Nat := 2
def ColorGreen : Nat := 3
def ColorYellow : Nat := 4
def ColorBlue : Nat := 5
def ColorMagenta : Nat := 6
def ColorCyan : Nat := 7
def ColorWhite : Nat := 8

/-- Go `Attribute uint16` bit constants (`AttrBold Attribute = 1 << iota`, ...). -/
def AttrBold : Nat := 1
def AttrUnderline : Nat := 2
def AttrReverse : Nat := 4
def AttrBlink : Nat := 8
def AttrDim : Nat := 16
def AttrItalic : Nat := 32
def AttrStrikethrough : Nat := 64

/-- One character cell of the grid: rune, foreground, background, attributes. -/
structure Cell where
  rune : Nat
  foreground : Nat
  background : Nat
  attributes : Nat
deriving DecidableEq, Repr

/-- The blank cell `Cell{Rune: ' '}`: rune 32 and zero (default) colors/attrs. -/
def blankCell : Cell := { rune := 32, foreground := ColorDefault, background := ColorDefault, attributes := 0 }

/-- Parser states (`stateNormal`, `stateEscape`, `stateCSI`). -/
inductive parseState
  | stateNormal
  | stateEscape
  | stateCSI
deriving DecidableEq, Repr

/-- The ANSI parser's persistent state: current parse state and the CSI
parameter buffer (the Go struct also holds a back-pointer to its terminal,
which the embedding represents by storing the parser inside the terminal). -/
structure ANSIParser where
  state : parseState
  buf : List Nat
deriving DecidableEq, Repr

/-- The virtual terminal (struct `VirtualTerminal` in vt.go). -/
structure VirtualTerminal where
  width : Int
  height : Int
  cells : List (List Cell)
  cursorX : Int
  cursorY : Int
  scrollback : List (List Cell)
  maxScrollback : Nat
  parser : ANSIParser
  currentFg : Nat
  currentBg : Nat
  currentAttr : Nat
deriving DecidableEq, Repr

/-- A row of `w` blank cells (`make([]Cell, width)` followed by blanking). -/
def mkBlankRow (w : Nat) : List Cell := List.replicate w blankCell

/-- `NewVirtualTerminal(width, height)`: blank grid, empty scrollback with
capacity 10000, default colors, parser in `stateNormal`. -/
def NewVirtualTerminal (width height : Int) : VirtualTerminal :=
  { width := width
    height := height
    cells := List.replicate height.toNat (mkBlankRow width.toNat)
    cursorX := 0
    cursorY := 0
    scrollback := []
    maxScrollback := 10000
    parser := { state := .stateNormal, buf := [] }
    currentFg := ColorDefault
    currentBg := ColorDefault
    currentAttr := 0 }

/-- Read the cell at row `y`, column `x` (defaulted lookup). -/
def cellAt (vt : VirtualTerminal) (y x : Nat) : Cell :=
  (vt.cells.getD y []).getD x blankCell

/-- Write the cell at row `y`, column `x` (`vt.cells[y][x] = c`). -/
def setCell (vt : VirtualTerminal) (y x : Nat) (c : Cell) : VirtualTerminal :=
  { vt with cells := vt.cells.set y ((vt.cells.getD y []).set x c) }

/-- `Resize(width, height)`: fresh blank grid, copy of the overlapping
top-left region (`copyHeight = min(old, new)` rows by `copyWidth` columns,
written as the source's comparisons), cursor clamped into the new bounds.
Scrollback, attributes and parser state are untouched. -/
def VirtualTerminal.Resize (vt : VirtualTerminal) (width height : Int) : VirtualTerminal :=
  let copyHeight := if vt.height < height then vt.height else height
  let copyWidth := if vt.width < width then vt.width else width
  let newCells := (List.range height.toNat).map fun (i : Nat) =>
    (List.range width.toNat).map fun (j : Nat) =>
      if ((i : Int) < copyHeight ∧ (j : Int) < copyWidth) then cellAt vt i j else blankCell
  { vt with
    width := width
    height := height
    cells := newCells
    cursorX := if vt.cursorX ≥ width then width - 1 else vt.cursorX
    cursorY := if vt.cursorY ≥ height then height - 1 else vt.cursorY }

/-- `scroll()`: evict the oldest scrollback line when at capacity, append the
top grid row to scrollback, shift all rows up and blank the bottom row. -/
def VirtualTerminal.scroll (vt : VirtualTerminal) : VirtualTerminal :=
  let sb := if vt.scrollback.length ≥ vt.maxScrollback then vt.scrollback.drop 1 else vt.scrollback
  { vt with
    scrollback := sb ++ [vt.cells.headD []]
    cells := vt.cells.drop 1 ++ [mkBlankRow vt.width.toNat] }

/-- `PutRune(r)`: lazily perform a pending scroll when the cursor sits one
past the last row, write the rune with the current attributes when the
cursor is inside the row, advance, and wrap to column 0 of the next row at
the right edge. -/
def VirtualTerminal.PutRune (vt : VirtualTerminal) (r : Nat) : VirtualTerminal :=
  let vt1 :=
    if vt.cursorY ≥ vt.height then
      let vs := vt.scroll
      { vs with cursorY := vs.height - 1 }
    else vt
  let vt2 :=
    if vt1.cursorX < vt1.width then
      let c : Cell := { rune := r, foreground := vt1.currentFg, background := vt1.currentBg, attributes := vt1.currentAttr }
      let vs := setCell vt1 vt1.cursorY.toNat vt1.cursorX.toNat c
      { vs with cursorX := vs.cursorX + 1 }
    else vt1
  if vt2.cursorX ≥ vt2.width then { vt2 with cursorX := 0, cursorY := vt2.cursorY + 1 }
  else vt2

/-- `MoveCursor(x, y)`: clamp both coordinates into the grid. -/
def VirtualTerminal.MoveCursor (vt : VirtualTerminal) (x y : Int) : VirtualTerminal :=
  let x1 := if x < 0 then 0 else x
  let x2 := if x1 ≥ vt.width then vt.width - 1 else x1
  let y1 := if y < 0 then 0 else y
  let y2 := if y1 ≥ vt.height then vt.height - 1 else y1
  { vt with cursorX := x2, cursorY := y2 }

/-- `NewLine()`: cursor to column 0 of the next row, scrolling at the bottom. -/
def VirtualTerminal.NewLine (vt : VirtualTerminal) : VirtualTerminal :=
  let vt1 := { vt with cursorX := 0, cursorY := vt.cursorY + 1 }
  if vt1.cursorY ≥ vt1.height then
    let vs := vt1.scroll
    { vs with cursorY := vs.height - 1 }
  else vt1

/-- `CarriageReturn()`: cursor to column 0. -/
def VirtualTerminal.CarriageReturn (vt : VirtualTerminal) : VirtualTerminal :=
  { vt with cursorX := 0 }

/-- `Clear()`: blank the whole grid, cursor to the origin; scrollback kept. -/
def VirtualTerminal.Clear (vt : VirtualTerminal) : VirtualTerminal :=
  { vt with
    cells := List.replicate vt.height.toNat (mkBlankRow vt.width.toNat)
    cursorX := 0
    cursorY := 0 }

/-- `SetForeground(color)`. -/
def VirtualTerminal.SetForeground (vt : VirtualTerminal) (color : Nat) : VirtualTerminal :=
  { vt with currentFg := color }

/-- `SetBackground(color)`. -/
def VirtualTerminal.SetBackground (vt : VirtualTerminal) (color : Nat) : VirtualTerminal :=
  { vt with currentBg := color }

/-- `SetAttribute(attr)`. -/
def VirtualTerminal.SetAttribute (vt : VirtualTerminal) (attr : Nat) : VirtualTerminal :=
  { vt with currentAttr := attr }

/-- `ResetAttributes()`. -/
def VirtualTerminal.ResetAttributes (vt : VirtualTerminal) : VirtualTerminal :=
  { vt with currentFg := ColorDefault, currentBg := ColorDefault, currentAttr := 0 }

/-! ## ANSI parser (vt.go) -/

/-- One step of `parseParams`' accumulation loop over the parameter buffer:
digits extend the current number, `;` flushes it (0 when empty), all other
bytes are ignored. State is (collected params, current value, hasDigit). -/
def parseParamsStep (acc : List Int × Int × Bool) (b : Nat) : List Int × Int × Bool :=
  let (params, current, hasDigit) := acc
  if 48 ≤ b ∧ b ≤ 57 then (params, current * 10 + ((b : Int) - 48), true)
  else if b = 59 then (params ++ [if hasDigit then current else 0], 0, false)
  else (params, current, hasDigit)

/-- `parseParams()`: split the accumulated CSI parameter buffer into a list
of integers (empty buffer yields nil, a trailing number is flushed). -/
def parseParams (buf : List Nat) : List Int :=
  if buf.length = 0 then []
  else
    let (params, current, hasDigit) := buf.foldl parseParamsStep ([], 0, false)
    if hasDigit then params ++ [current] else params

/-- One SGR parameter of the `m` command: 0 resets, 1 bold, 4 underline,
7 reverse; every other code (including all color codes) is ignored. -/
def sgrStep (vt : VirtualTerminal) (param : Int) : VirtualTerminal :=
  if param = 0 then vt.ResetAttributes
  else if param = 1 then vt.SetAttribute (vt.currentAttr ||| AttrBold)
  else if param = 4 then vt.SetAttribute (vt.currentAttr ||| AttrUnderline)
  else if param = 7 then vt.SetAttribute (vt.currentAttr ||| AttrReverse)
  else vt

/-- The `K` command's loop: blank the current row from the cursor's column to
the end of the row.  The Go loop body indexes `vt.cells[vt.cursorY]`; when
the loop runs at all (`cursorX < width`) with `cursorY` outside the cells
slice — reachable after a bottom-right `PutRune` wrap leaves
`cursorY = height` — the program panics with an index-out-of-range error,
modelled as `none`.  When the loop does not run, nothing is touched. -/
def eraseToLineEnd (vt : VirtualTerminal) : Option VirtualTerminal :=
  if vt.cursorX < vt.width ∧ ¬ (0 ≤ vt.cursorY ∧ vt.cursorY < (vt.cells.length : Int)) then
    none
  else
    let row := vt.cells.getD vt.cursorY.toNat []
    let cleared := row.mapIdx fun (x : Nat) c => if vt.cursorX ≤ (x : Int) then blankCell else c
    some { vt with cells := vt.cells.set vt.cursorY.toNat cleared }

/-- `handleCSI(cmd)`: dispatch on the final byte — `H`/`f` cursor position
(1-based, defaulting to 1), `J` clear (no param or param 2), `K` erase to
end of line (the one command that can panic, see `eraseToLineEnd`), `m` SGR;
anything else is a no-op. -/
def handleCSI (vt : VirtualTerminal) (cmd : Nat) : Option VirtualTerminal :=
  let params := parseParams vt.parser.buf
  if cmd = 72 ∨ cmd = 102 then
    let y : Int := if 0 < params.length ∧ 0 < params.getD 0 0 then params.getD 0 0 - 1 else 0
    let x : Int := if 1 < params.length ∧ 0 < params.getD 1 0 then params.getD 1 0 - 1 else 0
    some (vt.MoveCursor x y)
  else if cmd = 74 then
    if params.length = 0 ∨ params.getD 0 0 = 2 then some vt.Clear else some vt
  else if cmd = 75 then
    eraseToLineEnd vt
  else if cmd = 109 then
    if params.length = 0 then some vt.ResetAttributes
    else some (params.foldl sgrStep vt)
  else some vt

/-- One byte of `Parse`'s loop.  In `stateNormal`: ESC enters the escape
state, `\n`/`\r`/`\t` act on the cursor (a tab moves to the next multiple of
8 only when that is strictly below the width), printable ASCII and bytes
≥ 0x80 are printed; other control bytes are ignored.  In `stateEscape`: `[`
enters CSI (clearing the buffer), anything else returns to normal.  In
`stateCSI`: a final byte in 0x40–0x7E dispatches `handleCSI`, anything else
is accumulated into the parameter buffer. -/
def parseByte (vt : VirtualTerminal) (b : Nat) : Option VirtualTerminal :=
  match vt.parser.state with
  | .stateNormal =>
    if b = 27 then some { vt with parser := { vt.parser with state := .stateEscape } }
    else if b = 10 then some vt.NewLine
    else if b = 13 then some vt.CarriageReturn
    else if b = 9 then
      -- Go `/` truncates toward zero, Lean's `Int` `/` is Euclidean; they
      -- agree on non-negative operands, and `cursorX` never goes negative.
      let tabStop : Int := (vt.cursorX / 8 + 1) * 8
      if tabStop < vt.width then some { vt with cursorX := tabStop } else some vt
    else if 32 ≤ b ∧ b < 127 then some (vt.PutRune b)
    else if 128 ≤ b then some (vt.PutRune b)
    else some vt
  | .stateEscape =>
    if b = 91 then some { vt with parser := { state := .stateCSI, buf := [] } }
    else some { vt with parser := { vt.parser with state := .stateNormal } }
  | .stateCSI =>
    if 64 ≤ b ∧ b ≤ 126 then
      (handleCSI vt b).map fun vt1 => { vt1 with parser := { vt1.parser with state := .stateNormal } }
    else some { vt with parser := { vt.parser with buf := vt.parser.buf ++ [b] } }

/-- `ANSIParser.Parse(data)`: feed the bytes through `parseByte` in order;
a panic (`none`) aborts the whole call, leaving later bytes unprocessed. -/
def Parse (vt : VirtualTerminal) (data : List Nat) : Option VirtualTerminal :=
  data.foldl (fun acc b => acc.bind fun vt1 => parseByte vt1 b) (some vt)

/-- `Write(data)`: feed the parser and report the full byte count. -/
def VirtualTerminal.Write (vt : VirtualTerminal) (data : List Nat) :
    Option (VirtualTerminal × Nat) :=
  (Parse vt data).map fun vt1 => (vt1, data.length)

/-! ## Whole-terminal operations

A single public operation on a `VirtualTerminal`, used to quantify over
arbitrary operation sequences. -/

inductive VTOp
  | putRune (r : Nat)
  | newLine
  | carriageReturn
  | moveCursor (x y : Int)
  | clear
  | resize (w h : Int)
  | write (data : List Nat)

/-- Apply one operation; only `write` can panic (through the CSI-K path). -/
def applyOp (vt : VirtualTerminal) : VTOp → Option VirtualTerminal
  | .putRune r => some (vt.PutRune r)
  | .newLine => some vt.NewLine
  | .carriageReturn => some vt.CarriageReturn
  | .moveCursor x y => some (vt.MoveCursor x y)
  | .clear => some vt.Clear
  | .resize w h => some (vt.Resize w h)
  | .write data => Parse vt data

/-- Apply a sequence of operations in order; a panic aborts the run. -/
def applyOps (vt : VirtualTerminal) (ops : List VTOp) : Option VirtualTerminal :=
  ops.foldl (fun acc op => acc.bind fun vt1 => applyOp vt1 op) (some vt)

/-- An operation has sensible arguments: resizes target positive dimensions
(every other operation is unconstrained). -/
def VTOp.wellSized : VTOp → Bool
  | .resize w h => 1 ≤ w && 1 ≤ h
  | _ => true

/-- Cursor geometry maintained by every operation: `cursorX` strictly inside
the row, `cursorY` at most one past the last row (it equals `height` exactly
while a wrap at the bottom-right corner leaves a scroll pending), and
positive dimensions. -/
def cursorInv (vt : VirtualTerminal) : Prop :=
  0 ≤ vt.cursorX ∧ vt.cursorX < vt.width ∧
  0 ≤ vt.cursorY ∧ vt.cursorY ≤ vt.height ∧
  1 ≤ vt.width ∧ 1 ≤ vt.height

instance (vt : VirtualTerminal) : Decidable (cursorInv vt) := by
  unfold cursorInv; infer_instance

/-- The scrollback bound: never longer than the capacity, which stays at its
construction-time value 10000. -/
def sbBound (vt : VirtualTerminal) : Prop :=
  vt.scrollback.length ≤ vt.maxScrollback ∧ vt.maxScrollback = 10000

instance (vt : VirtualTerminal) : Decidable (sbBound vt) := by
  unfold sbBound; infer_instance

/-- The pure effect of one `scroll()` call on the scrollback buffer: drop
the oldest line when at capacity, append the newly evicted line. -/
def pushEvict (cap : Nat) (sb : List (List Cell)) (line : List Cell) : List (List Cell) :=
  (if sb.length ≥ cap then sb.drop 1 else sb) ++ [line]

/-! ## Process supervisor (process.go, events.go)

The supervisor claims are per-instance: the manager's map lookup is assumed
to succeed (an unknown ID returns "not found" without touching any state).
The PTY spawn syscall (`pty.Start`) is external and modelled by a boolean
outcome parameter; the `done` channel is modelled by two flags (created /
closed), since the only observable facts about it here are its creation in
`AddInstance` and Go's panic on a double `close`. -/

/-- `InstanceState` constants (types.go). -/
inductive InstanceState
  | stateIdle
  | stateStarting
  | stateRunning
  | stateThinking
  | stateStopping
  | stateStopped
  | stateCrashed
deriving DecidableEq, Repr

/-- The events a start/stop call pushes onto the manager's event channel,
stripped of instance ID and timestamp (constant within one call). -/
inductive MEvent
  | processStateChange (old new : InstanceState)
  | processError
deriving DecidableEq, Repr

/-- The per-instance state the lifecycle claims observe. -/
structure MInstance where
  state : InstanceState
  hasPTY : Bool
  doneCreated : Bool
  doneClosed : Bool
deriving DecidableEq, Repr

/-- `AddInstance`: initialize the instance's channels (the `done` channel is
created here, and only here) and emit one state-change event
`(StateIdle, instance.State)`. -/
def AddInstance (inst : MInstance) : MInstance × List MEvent :=
  ({ inst with doneCreated := true, doneClosed := false },
   [.processStateChange .stateIdle inst.state])

/-- Outcome of `StartInstance`: success, the "instance already running"
error, or the wrapped PTY spawn error. -/
inductive StartResult
  | ok
  | errAlreadyRunning
  | errSpawn
deriving DecidableEq, Repr

/-- `StartInstance` (the part after a successful map lookup), with the PTY
spawn outcome supplied as `spawnOk`.  A `Running` instance is rejected with
no event; otherwise the state moves to `Starting` (one event).  On spawn
failure the state becomes `Crashed`, a process-error event is emitted and
the error is returned; on success the state becomes `Running` with one more
state-change event.  The `done` channel fields are never touched. -/
def StartInstance (spawnOk : Bool) (inst : MInstance) : StartResult × MInstance × List MEvent :=
  if inst.state = .stateRunning then (.errAlreadyRunning, inst, [])
  else
    let oldState := inst.state
    let inst1 := { inst with state := .stateStarting }
    if spawnOk then
      (.ok, { inst1 with state := .stateRunning, hasPTY := true },
       [.processStateChange oldState .stateStarting,
        .processStateChange .stateStarting .stateRunning])
    else
      (.errSpawn, { inst1 with state := .stateCrashed },
       [.processStateChange oldState .stateStarting, .processError])

/-- Outcome of `StopInstance`: success, the "instance not running" error, or
the Go runtime panic raised by `close` on an already-closed channel. -/
inductive StopResult
  | ok
  | errNotRunning
  | panicClosedChannel
deriving DecidableEq, Repr

/-- `StopInstance` (after a successful map lookup).  A non-`Running`
instance is rejected.  Otherwise the PTY is closed and the process killed,
the state reaches `Stopped`, and then `close(instance.done)` runs: when the
channel is already closed this panics, before the state-change event is
sent; otherwise the channel is marked closed and the event is emitted. -/
def StopInstance (inst : MInstance) : StopResult × MInstance × List MEvent :=
  if inst.state ≠ .stateRunning then (.errNotRunning, inst, [])
  else
    let inst1 := { inst with state := .stateStopped, hasPTY := false }
    if inst.doneClosed then
      (.panicClosedChannel, inst1, [])
    else
      (.ok, { inst1 with doneClosed := true },
       [.processStateChange .stateRunning .stateStopped])

/-! ## Token tracker (token.go, types.go) -/

/-- `TokenUsage` (types.go).  Go's `float64` cost is modelled as an exact
rational; the wall-clock `LastUpdated` field is omitted. -/
structure TokenUsage where
  inputTokens : Int
  outputTokens : Int
  totalTokens : Int
  estimatedCost : Rat
deriving DecidableEq

/-- The zero value `TokenUsage{}` a fresh tracker starts from. -/
def TokenUsage.zero : TokenUsage :=
  { inputTokens := 0, outputTokens := 0, totalTokens := 0, estimatedCost := 0 }

/-- `updateUsage(input, output)`: add into the running counters, recompute
`total = input + output` and the linear cost estimate
(`input * 0.003 / 1000 + output * 0.015 / 1000` dollars). -/
def TokenTracker.updateUsage (u : TokenUsage) (input output : Int) : TokenUsage :=
  let inputTokens := u.inputTokens + input
  let outputTokens := u.outputTokens + output
  let inputCost : Rat := (inputTokens : Rat) * (3 / 1000) / 1000
  let outputCost : Rat := (outputTokens : Rat) * (15 / 1000) / 1000
  { inputTokens := inputTokens
    outputTokens := outputTokens
    totalTokens := inputTokens + outputTokens
    estimatedCost := inputCost + outputCost }

/-- `Reset()`: `tt.usage = TokenUsage{LastUpdated: now}` — every counter and
the cost estimate return to the zero value. -/
def TokenTracker.Reset (_ : TokenUsage) : TokenUsage := TokenUsage.zero

/-- The effect of one `ParseOutput` call on the usage counters.  The regex
machinery itself is not modelled; what matters is the shape of the values
each path can hand to `updateUsage`:
* `matched` covers `tryParseClaudeFormat`, `tryParseJSONFormat` and the
  line-by-line Human/Assistant/Total paths, whose captures are `\d+` digit
  substrings — hence non-negative, carried as `Nat`;
* `matchedAPI` covers `tryParseAPIFormat`, which json-decodes the int64
  `input_tokens`/`output_tokens` fields and calls `updateUsage` only when
  the decoded input is positive — the decoded output is passed UNCHECKED
  and may be negative, so it is carried as `Int`;
* `costOnly` is the cost-pattern branch, overwriting `estimatedCost` alone;
* `noMatch` leaves the usage untouched. -/
inductive ParseOutcome
  | noMatch
  | matched (input output : Nat)
  | matchedAPI (input output : Int)
  | costOnly (c : Rat)

/-- Apply one `ParseOutput` call's effect.  The `matchedAPI` guard mirrors
the `usage.Usage.InputTokens > 0` test in `tryParseAPIFormat`; no test is
made of the output value. -/
def applyParse (u : TokenUsage) : ParseOutcome → TokenUsage
  | .noMatch => u
  | .matched i o => TokenTracker.updateUsage u (i : Int) (o : Int)
  | .matchedAPI i o => if 0 < i then TokenTracker.updateUsage u i o else u
  | .costOnly c => { u with estimatedCost := c }

/-- A `ParseOutput` effect that cannot decrease the output counter: every
path except a `matchedAPI` with a negative decoded output. -/
def ParseOutcome.outputNonneg : ParseOutcome → Bool
  | .matchedAPI _ o => decide (0 ≤ o)
  | _ => true

/-- Run a sequence of `ParseOutput` calls. -/
def runParse (u : TokenUsage) (calls : List ParseOutcome) : TokenUsage :=
  calls.foldl applyParse u

/-! ## Helper lemmas: token tracker -/

theorem applyParse_input_le (u : TokenUsage) (c : ParseOutcome) :
    u.inputTokens ≤ (applyParse u c).inputTokens := by
  cases c with
  | noMatch => exact le_refl _
  | matched i o =>
      have h1 : (applyParse u (.matched i o)).inputTokens = u.inputTokens + (i : Int) := rfl
      rw [h1]
      omega
  | matchedAPI i o =>
      simp only [applyParse]
      split_ifs with hi
      · have h1 : (TokenTracker.updateUsage u i o).inputTokens = u.inputTokens + i := rfl
        rw [h1]
        omega
      · exact le_refl _
  | costOnly ccost => exact le_refl _

theorem applyParse_output_le (u : TokenUsage) (c : ParseOutcome)
    (hc : c.outputNonneg = true) :
    u.outputTokens ≤ (applyParse u c).outputTokens := by
  cases c with
  | noMatch => exact le_refl _
  | matched i o =>
      have h1 : (applyParse u (.matched i o)).outputTokens = u.outputTokens + (o : Int) := rfl
      rw [h1]
      omega
  | matchedAPI i o =>
      simp only [ParseOutcome.outputNonneg, decide_eq_true_eq] at hc
      simp only [applyParse]
      split_ifs with hi
      · have h1 : (TokenTracker.updateUsage u i o).outputTokens = u.outputTokens + o := rfl
        rw [h1]
        omega
      · exact le_refl _
  | costOnly ccost => exact le_refl _

theorem applyParse_total (u : TokenUsage) (c : ParseOutcome)
    (h : u.totalTokens = u.inputTokens + u.outputTokens) :
    (applyParse u c).totalTokens = (applyParse u c).inputTokens + (applyParse u c).outputTokens := by
  cases c with
  | noMatch => exact h
  | matched i o => rfl
  | matchedAPI i o =>
      simp only [applyParse]
      split_ifs with hi
      · rfl
      · exact h
  | costOnly ccost => exact h

theorem runParse_total (u : TokenUsage) (calls : List ParseOutcome)
    (h : u.totalTokens = u.inputTokens + u.outputTokens) :
    (runParse u calls).totalTokens =
      (runParse u calls).inputTokens + (runParse u calls).outputTokens := by
  induction calls generalizing u with
  | nil => exact h
  | cons c cs ih => exact ih (applyParse u c) (applyParse_total u c h)

theorem runParse_take_succ (u : TokenUsage) (calls : List ParseOutcome) (i : Nat) :
    runParse u (calls.take (i + 1)) =
      (calls[i]?.toList).foldl applyParse (runParse u (calls.take i)) := by
  unfold runParse
  rw [List.take_succ, List.foldl_append]

/-! ## Helper lemmas: virtual terminal cursor geometry -/

/-- Cursor and dimension fields of two terminals agree. -/
def sameGeom (a b : VirtualTerminal) : Prop :=
  a.cursorX = b.cursorX ∧ a.cursorY = b.cursorY ∧ a.width = b.width ∧ a.height = b.height

theorem sameGeom_cursorInv {a b : VirtualTerminal} (h : sameGeom a b) :
    cursorInv a ↔ cursorInv b := by
  obtain ⟨h1, h2, h3, h4⟩ := h
  unfold cursorInv
  rw [h1, h2, h3, h4]

theorem sameGeom_trans {a b c : VirtualTerminal} (h1 : sameGeom a b) (h2 : sameGeom b c) :
    sameGeom a c :=
  ⟨h1.1.trans h2.1, h1.2.1.trans h2.2.1, h1.2.2.1.trans h2.2.2.1, h1.2.2.2.trans h2.2.2.2⟩

theorem scroll_sameGeom (vt : VirtualTerminal) : sameGeom vt.scroll vt :=
  ⟨rfl, rfl, rfl, rfl⟩

theorem setCell_sameGeom (vt : VirtualTerminal) (y x : Nat) (c : Cell) :
    sameGeom (setCell vt y x c) vt :=
  ⟨rfl, rfl, rfl, rfl⟩

theorem eraseToLineEnd_sameGeom {vt vt' : VirtualTerminal}
    (h : eraseToLineEnd vt = some vt') : sameGeom vt' vt := by
  unfold eraseToLineEnd at h
  by_cases hc : vt.cursorX < vt.width ∧ ¬ (0 ≤ vt.cursorY ∧ vt.cursorY < (vt.cells.length : Int))
  · rw [if_pos hc] at h
    exact absurd h (by simp)
  · rw [if_neg hc] at h
    cases Option.some.inj h
    exact ⟨rfl, rfl, rfl, rfl⟩

theorem eraseToLineEnd_sb {vt vt' : VirtualTerminal}
    (h : eraseToLineEnd vt = some vt') :
    vt'.scrollback = vt.scrollback ∧ vt'.maxScrollback = vt.maxScrollback := by
  unfold eraseToLineEnd at h
  by_cases hc : vt.cursorX < vt.width ∧ ¬ (0 ≤ vt.cursorY ∧ vt.cursorY < (vt.cells.length : Int))
  · rw [if_pos hc] at h
    exact absurd h (by simp)
  · rw [if_neg hc] at h
    cases Option.some.inj h
    exact ⟨rfl, rfl⟩

theorem resetAttributes_sameGeom (vt : VirtualTerminal) :
    sameGeom vt.ResetAttributes vt :=
  ⟨rfl, rfl, rfl, rfl⟩

theorem sgrStep_sameGeom (vt : VirtualTerminal) (p : Int) : sameGeom (sgrStep vt p) vt := by
  unfold sgrStep VirtualTerminal.ResetAttributes VirtualTerminal.SetAttribute
  split_ifs <;> exact ⟨rfl, rfl, rfl, rfl⟩

theorem sgrFold_sameGeom (ps : List Int) (vt : VirtualTerminal) :
    sameGeom (ps.foldl sgrStep vt) vt := by
  induction ps generalizing vt with
  | nil => exact ⟨rfl, rfl, rfl, rfl⟩
  | cons p ps ih => exact sameGeom_trans (ih (sgrStep vt p)) (sgrStep_sameGeom vt p)

theorem cursorInv_MoveCursor (vt : VirtualTerminal) (x y : Int) (h : cursorInv vt) :
    cursorInv (vt.MoveCursor x y) := by
  obtain ⟨hx0, hxw, hy0, hyh, hw, hh⟩ := h
  unfold VirtualTerminal.MoveCursor
  dsimp only
  split_ifs <;> simp_all [cursorInv] <;> omega

theorem cursorInv_CarriageReturn (vt : VirtualTerminal) (h : cursorInv vt) :
    cursorInv vt.CarriageReturn := by
  obtain ⟨hx0, hxw, hy0, hyh, hw, hh⟩ := h
  unfold VirtualTerminal.CarriageReturn
  simp only [cursorInv]
  omega

theorem cursorInv_Clear (vt : VirtualTerminal) (h : cursorInv vt) :
    cursorInv vt.Clear := by
  obtain ⟨hx0, hxw, hy0, hyh, hw, hh⟩ := h
  unfold VirtualTerminal.Clear
  simp only [cursorInv]
  omega

theorem cursorInv_PutRune (vt : VirtualTerminal) (r : Nat) (h : cursorInv vt) :
    cursorInv (vt.PutRune r) := by
  obtain ⟨hx0, hxw, hy0, hyh, hw, hh⟩ := h
  unfold VirtualTerminal.PutRune
  dsimp only
  split_ifs <;> simp_all [cursorInv, setCell, VirtualTerminal.scroll] <;> omega

theorem cursorInv_NewLine (vt : VirtualTerminal) (h : cursorInv vt) :
    cursorInv vt.NewLine := by
  obtain ⟨hx0, hxw, hy0, hyh, hw, hh⟩ := h
  unfold VirtualTerminal.NewLine
  dsimp only
  split_ifs <;> simp_all [cursorInv, VirtualTerminal.scroll] <;> omega

theorem cursorInv_Resize (vt : VirtualTerminal) (w h : Int) (hw : 1 ≤ w) (hh : 1 ≤ h)
    (hx : 0 ≤ vt.cursorX) (hy : 0 ≤ vt.cursorY) : cursorInv (vt.Resize w h) := by
  unfold VirtualTerminal.Resize
  dsimp only
  split_ifs <;> simp_all [cursorInv] <;> omega

theorem cursorInv_handleCSI (vt vt' : VirtualTerminal) (cmd : Nat)
    (hres : handleCSI vt cmd = some vt') (h : cursorInv vt) : cursorInv vt' := by
  unfold handleCSI at hres
  dsimp only at hres
  by_cases h1 : cmd = 72 ∨ cmd = 102
  · rw [if_pos h1] at hres
    cases Option.some.inj hres
    exact cursorInv_MoveCursor vt _ _ h
  · rw [if_neg h1] at hres
    by_cases h2 : cmd = 74
    · rw [if_pos h2] at hres
      by_cases h3 : (parseParams vt.parser.buf).length = 0 ∨ (parseParams vt.parser.buf).getD 0 0 = 2
      · rw [if_pos h3] at hres
        cases Option.some.inj hres
        exact cursorInv_Clear vt h
      · rw [if_neg h3] at hres
        cases Option.some.inj hres
        exact h
    · rw [if_neg h2] at hres
      by_cases h4 : cmd = 75
      · rw [if_pos h4] at hres
        exact (sameGeom_cursorInv (eraseToLineEnd_sameGeom hres)).2 h
      · rw [if_neg h4] at hres
        by_cases h5 : cmd = 109
        · rw [if_pos h5] at hres
          by_cases h6 : (parseParams vt.parser.buf).length = 0
          · rw [if_pos h6] at hres
            cases Option.some.inj hres
            exact (sameGeom_cursorInv (resetAttributes_sameGeom vt)).2 h
          · rw [if_neg h6] at hres
            cases Option.some.inj hres
            exact (sameGeom_cursorInv (sgrFold_sameGeom _ vt)).2 h
        · rw [if_neg h5] at hres
          cases Option.some.inj hres
          exact h

theorem cursorInv_parseByte (vt vt' : VirtualTerminal) (b : Nat)
    (hres : parseByte vt b = some vt') (h : cursorInv vt) : cursorInv vt' := by
  obtain ⟨hx0, hxw, hy0, hyh, hw, hh⟩ := h
  have h' : cursorInv vt := ⟨hx0, hxw, hy0, hyh, hw, hh⟩
  cases hs : vt.parser.state with
  | stateNormal =>
      simp only [parseByte, hs] at hres
      split_ifs at hres
      · cases Option.some.inj hres
        exact ⟨hx0, hxw, hy0, hyh, hw, hh⟩
      · cases Option.some.inj hres
        exact cursorInv_NewLine vt h'
      · cases Option.some.inj hres
        exact cursorInv_CarriageReturn vt h'
      · cases Option.some.inj hres
        simp only [cursorInv]
        refine ⟨?_, ?_, hy0, hyh, hw, hh⟩ <;> omega
      · cases Option.some.inj hres
        exact h'
      · cases Option.some.inj hres
        exact cursorInv_PutRune vt _ h'
      · cases Option.some.inj hres
        exact cursorInv_PutRune vt _ h'
      · cases Option.some.inj hres
        exact h'
  | stateEscape =>
      simp only [parseByte, hs] at hres
      split_ifs at hres <;> (cases Option.some.inj hres; exact ⟨hx0, hxw, hy0, hyh, hw, hh⟩)
  | stateCSI =>
      simp only [parseByte, hs] at hres
      split_ifs at hres
      · rcases Option.map_eq_some'.mp hres with ⟨v, hv, hveq⟩
        cases hveq
        have hcsi := cursorInv_handleCSI vt v b hv h'
        simp only [cursorInv] at hcsi ⊢
        exact hcsi
      · cases Option.some.inj hres
        exact h'

theorem foldl_bind_parseByte_none (bs : List Nat) :
    bs.foldl (fun acc b => acc.bind fun vt1 => parseByte vt1 b) none = none := by
  induction bs with
  | nil => rfl
  | cons b bs ih => simpa using ih

theorem Parse_cons (vt : VirtualTerminal) (b : Nat) (bs : List Nat) :
    Parse vt (b :: bs) = (parseByte vt b).bind fun vt1 => Parse vt1 bs := by
  unfold Parse
  rw [List.foldl_cons]
  cases hpb : parseByte vt b with
  | none => simpa [hpb] using foldl_bind_parseByte_none bs
  | some v => simp [hpb]

theorem Parse_append (vt : VirtualTerminal) (a b : List Nat) :
    Parse vt (a ++ b) = (Parse vt a).bind fun v => Parse v b := by
  induction a generalizing vt with
  | nil => rfl
  | cons x xs ih =>
      rw [List.cons_append, Parse_cons, Parse_cons, Option.bind_assoc]
      exact congrArg _ (funext fun v => ih v)

theorem cursorInv_Parse (vt vt' : VirtualTerminal) (data : List Nat)
    (hres : Parse vt data = some vt') (h : cursorInv vt) : cursorInv vt' := by
  induction data generalizing vt with
  | nil => cases Option.some.inj hres; exact h
  | cons b bs ih =>
      rw [Parse_cons] at hres
      rcases Option.bind_eq_some.mp hres with ⟨v, hv, hrest⟩
      exact ih v hrest (cursorInv_parseByte vt v b hv h)

theorem cursorInv_applyOp (vt vt' : VirtualTerminal) (op : VTOp) (hop : op.wellSized = true)
    (hres : applyOp vt op = some vt') (h : cursorInv vt) : cursorInv vt' := by
  cases op with
  | putRune r => cases Option.some.inj hres; exact cursorInv_PutRune vt r h
  | newLine => cases Option.some.inj hres; exact cursorInv_NewLine vt h
  | carriageReturn => cases Option.some.inj hres; exact cursorInv_CarriageReturn vt h
  | moveCursor x y => cases Option.some.inj hres; exact cursorInv_MoveCursor vt x y h
  | clear => cases Option.some.inj hres; exact cursorInv_Clear vt h
  | resize w hgt =>
      cases Option.some.inj hres
      simp only [VTOp.wellSized, Bool.and_eq_true, decide_eq_true_eq] at hop
      exact cursorInv_Resize vt w hgt hop.1 hop.2 h.1 h.2.2.1
  | write data => exact cursorInv_Parse vt vt' data hres h

theorem foldl_bind_applyOp_none (ops : List VTOp) :
    ops.foldl (fun acc op => acc.bind fun vt1 => applyOp vt1 op) none = none := by
  induction ops with
  | nil => rfl
  | cons op ops ih => simpa using ih

theorem applyOps_cons (vt : VirtualTerminal) (op : VTOp) (ops : List VTOp) :
    applyOps vt (op :: ops) = (applyOp vt op).bind fun vt1 => applyOps vt1 ops := by
  unfold applyOps
  rw [List.foldl_cons]
  cases hop : applyOp vt op with
  | none => simpa [hop] using foldl_bind_applyOp_none ops
  | some v => simp [hop]

theorem cursorInv_applyOps (vt vt' : VirtualTerminal) (ops : List VTOp)
    (hops : ∀ op ∈ ops, op.wellSized = true) (hres : applyOps vt ops = some vt')
    (h : cursorInv vt) : cursorInv vt' := by
  induction ops generalizing vt with
  | nil => cases Option.some.inj hres; exact h
  | cons op ops ih =>
      rw [applyOps_cons] at hres
      rcases Option.bind_eq_some.mp hres with ⟨v, hv, hrest⟩
      exact ih v (fun o ho => hops o (List.mem_cons_of_mem op ho)) hrest
        (cursorInv_applyOp vt v op (hops op (List.mem_cons_self op ops)) hv h)

theorem cursorInv_new (w h : Int) (hw : 1 ≤ w) (hh : 1 ≤ h) :
    cursorInv (NewVirtualTerminal w h) := by
  simp only [cursorInv, NewVirtualTerminal]
  omega

/-! ## Helper lemmas: scrollback bound -/

theorem scroll_scrollback (vt : VirtualTerminal) :
    vt.scroll.scrollback = pushEvict vt.maxScrollback vt.scrollback (vt.cells.headD []) := rfl

theorem pushEvict_length (cap : Nat) (sb : List (List Cell)) (line : List Cell)
    (hl : sb.length ≤ cap) (hc : 1 ≤ cap) : (pushEvict cap sb line).length ≤ cap := by
  unfold pushEvict
  split_ifs with hge <;> simp [List.length_append, List.length_drop] <;> omega

theorem sbBound_of_eq {a b : VirtualTerminal} (hsb : a.scrollback = b.scrollback)
    (hmax : a.maxScrollback = b.maxScrollback) (h : sbBound b) : sbBound a := by
  unfold sbBound at *
  rw [hsb, hmax]
  exact h

theorem sbBound_scroll (vt : VirtualTerminal) (h : sbBound vt) : sbBound vt.scroll := by
  obtain ⟨hl, hc⟩ := h
  refine ⟨?_, hc⟩
  rw [scroll_scrollback]
  exact pushEvict_length _ _ _ hl (by omega)

theorem sgrFold_sb (ps : List Int) (vt : VirtualTerminal) :
    (ps.foldl sgrStep vt).scrollback = vt.scrollback ∧
    (ps.foldl sgrStep vt).maxScrollback = vt.maxScrollback := by
  induction ps generalizing vt with
  | nil => exact ⟨rfl, rfl⟩
  | cons p ps ih =>
      have hstep : (sgrStep vt p).scrollback = vt.scrollback ∧
          (sgrStep vt p).maxScrollback = vt.maxScrollback := by
        unfold sgrStep VirtualTerminal.ResetAttributes VirtualTerminal.SetAttribute
        split_ifs <;> exact ⟨rfl, rfl⟩
      have := ih (sgrStep vt p)
      exact ⟨this.1.trans hstep.1, this.2.trans hstep.2⟩

theorem sbBound_PutRune (vt : VirtualTerminal) (r : Nat) (h : sbBound vt) :
    sbBound (vt.PutRune r) := by
  unfold VirtualTerminal.PutRune
  dsimp only
  split_ifs <;>
    first
      | exact sbBound_of_eq rfl rfl (sbBound_scroll vt h)
      | exact sbBound_of_eq rfl rfl h

theorem sbBound_NewLine (vt : VirtualTerminal) (h : sbBound vt) : sbBound vt.NewLine := by
  unfold VirtualTerminal.NewLine
  dsimp only
  split_ifs <;>
    first
      | exact sbBound_of_eq rfl rfl (sbBound_scroll _ (sbBound_of_eq rfl rfl h))
      | exact sbBound_of_eq rfl rfl h

theorem sbBound_handleCSI (vt vt' : VirtualTerminal) (cmd : Nat)
    (hres : handleCSI vt cmd = some vt') (h : sbBound vt) : sbBound vt' := by
  unfold handleCSI at hres
  dsimp only at hres
  by_cases h1 : cmd = 72 ∨ cmd = 102
  · rw [if_pos h1] at hres
    cases Option.some.inj hres
    exact sbBound_of_eq rfl rfl h
  · rw [if_neg h1] at hres
    by_cases h2 : cmd = 74
    · rw [if_pos h2] at hres
      by_cases h3 : (parseParams vt.parser.buf).length = 0 ∨ (parseParams vt.parser.buf).getD 0 0 = 2
      · rw [if_pos h3] at hres
        cases Option.some.inj hres
        exact sbBound_of_eq rfl rfl h
      · rw [if_neg h3] at hres
        cases Option.some.inj hres
        exact h
    · rw [if_neg h2] at hres
      by_cases h4 : cmd = 75
      · rw [if_pos h4] at hres
        exact sbBound_of_eq (eraseToLineEnd_sb hres).1 (eraseToLineEnd_sb hres).2 h
      · rw [if_neg h4] at hres
        by_cases h5 : cmd = 109
        · rw [if_pos h5] at hres
          by_cases h6 : (parseParams vt.parser.buf).length = 0
          · rw [if_pos h6] at hres
            cases Option.some.inj hres
            exact sbBound_of_eq rfl rfl h
          · rw [if_neg h6] at hres
            cases Option.some.inj hres
            exact sbBound_of_eq (sgrFold_sb _ vt).1 (sgrFold_sb _ vt).2 h
        · rw [if_neg h5] at hres
          cases Option.some.inj hres
          exact h

theorem sbBound_parseByte (vt vt' : VirtualTerminal) (b : Nat)
    (hres : parseByte vt b = some vt') (h : sbBound vt) : sbBound vt' := by
  cases hs : vt.parser.state with
  | stateNormal =>
      simp only [parseByte, hs] at hres
      split_ifs at hres
      · cases Option.some.inj hres
        exact sbBound_of_eq rfl rfl h
      · cases Option.some.inj hres
        exact sbBound_NewLine vt h
      · cases Option.some.inj hres
        exact sbBound_of_eq rfl rfl h
      · cases Option.some.inj hres
        exact sbBound_of_eq rfl rfl h
      · cases Option.some.inj hres
        exact h
      · cases Option.some.inj hres
        exact sbBound_PutRune vt _ h
      · cases Option.some.inj hres
        exact sbBound_PutRune vt _ h
      · cases Option.some.inj hres
        exact h
  | stateEscape =>
      simp only [parseByte, hs] at hres
      split_ifs at hres <;> (cases Option.some.inj hres; exact sbBound_of_eq rfl rfl h)
  | stateCSI =>
      simp only [parseByte, hs] at hres
      split_ifs at hres
      · rcases Option.map_eq_some'.mp hres with ⟨v, hv, hveq⟩
        cases hveq
        exact sbBound_of_eq rfl rfl (sbBound_handleCSI vt v b hv h)
      · cases Option.some.inj hres
        exact h

theorem sbBound_Parse (vt vt' : VirtualTerminal) (data : List Nat)
    (hres : Parse vt data = some vt') (h : sbBound vt) : sbBound vt' := by
  induction data generalizing vt with
  | nil => cases Option.some.inj hres; exact h
  | cons b bs ih =>
      rw [Parse_cons] at hres
      rcases Option.bind_eq_some.mp hres with ⟨v, hv, hrest⟩
      exact ih v hrest (sbBound_parseByte vt v b hv h)

theorem sbBound_applyOp (vt vt' : VirtualTerminal) (op : VTOp)
    (hres : applyOp vt op = some vt') (h : sbBound vt) : sbBound vt' := by
  cases op with
  | putRune r => cases Option.some.inj hres; exact sbBound_PutRune vt r h
  | newLine => cases Option.some.inj hres; exact sbBound_NewLine vt h
  | carriageReturn => cases Option.some.inj hres; exact sbBound_of_eq rfl rfl h
  | moveCursor x y => cases Option.some.inj hres; exact sbBound_of_eq rfl rfl h
  | clear => cases Option.some.inj hres; exact sbBound_of_eq rfl rfl h
  | resize w hgt => cases Option.some.inj hres; exact sbBound_of_eq rfl rfl h
  | write data => exact sbBound_Parse vt vt' data hres h

theorem sbBound_applyOps (vt vt' : VirtualTerminal) (ops : List VTOp)
    (hres : applyOps vt ops = some vt') (h : sbBound vt) : sbBound vt' := by
  induction ops generalizing vt with
  | nil => cases Option.some.inj hres; exact h
  | cons op ops ih =>
      rw [applyOps_cons] at hres
      rcases Option.bind_eq_some.mp hres with ⟨v, hv, hrest⟩
      exact ih v hrest (sbBound_applyOp vt v op hv h)

theorem pushEvict_foldl (cap : Nat) (hc : 1 ≤ cap) (sb : List (List Cell))
    (hl : sb.length ≤ cap) (ls : List (List Cell)) :
    ls.foldl (pushEvict cap) sb = (sb ++ ls).drop ((sb ++ ls).length - cap) := by
  induction ls generalizing sb with
  | nil =>
      simp [Nat.sub_eq_zero_of_le hl]
  | cons l ls ih =>
      rw [List.foldl_cons, ih (pushEvict cap sb l) (pushEvict_length cap sb l hl hc)]
      by_cases hge : sb.length ≥ cap
      · have hcap : sb.length = cap := le_antisymm hl hge
        have h1 : 1 ≤ sb.length := by omega
        unfold pushEvict
        rw [if_pos hge]
        have hlen1 : ((sb.drop 1 ++ [l]) ++ ls).length - cap = ls.length := by
          simp only [List.length_append, List.length_drop, List.length_cons, List.length_nil]
          omega
        have hlen2 : (sb ++ l :: ls).length - cap = ls.length + 1 := by
          simp only [List.length_append, List.length_cons]
          omega
        have hdrop1 : ((sb ++ [l]) ++ ls).drop 1 = (sb.drop 1 ++ [l]) ++ ls := by
          rw [List.drop_append_of_le_length (by simp),
              List.drop_append_of_le_length (by omega)]
        have hsplit : sb ++ l :: ls = (sb ++ [l]) ++ ls := by simp
        rw [hlen1, hlen2, hsplit, ← hdrop1, List.drop_drop, Nat.add_comm]
      · unfold pushEvict
        rw [if_neg hge]
        have hsplit : (sb ++ [l]) ++ ls = sb ++ l :: ls := by simp
        rw [hsplit]

/-! ## Helper lemmas: resize region preservation -/

theorem cellAt_Resize (vt : VirtualTerminal) (w h : Int) (i j : Nat)
    (hi : (i : Int) < min vt.height h) (hj : (j : Int) < min vt.width w) :
    cellAt (vt.Resize w h) i j = cellAt vt i j := by
  have hih : i < h.toNat := by omega
  have hjw : j < w.toNat := by omega
  have hch : (i : Int) < (if vt.height < h then vt.height else h) := by
    split_ifs <;> omega
  have hcw : (j : Int) < (if vt.width < w then vt.width else w) := by
    split_ifs <;> omega
  conv_lhs => unfold cellAt VirtualTerminal.Resize
  dsimp only
  simp [List.getD_eq_getElem?_getD, List.getElem?_map, List.getElem?_range, hih, hjw, hch, hcw]

/-! ## Helper lemmas: process supervisor -/

theorem startInstance_done_fields (b : Bool) (inst : MInstance) :
    (StartInstance b inst).2.1.doneCreated = inst.doneCreated ∧
    (StartInstance b inst).2.1.doneClosed = inst.doneClosed := by
  unfold StartInstance
  split_ifs <;> simp

theorem stopInstance_doneCreated (inst : MInstance) :
    (StopInstance inst).2.1.doneCreated = inst.doneCreated := by
  unfold StopInstance
  split_ifs <;> simp

/-! ## Claims -/

/-- The scenario B input bytes, `"\x1b[31mHELLO\x1b[0m\n"`. -/
def scenarioB : List Nat := [27, 91, 51, 49, 109, 72, 69, 76, 76, 79, 27, 91, 48, 109, 10]

/-- C1 (counterexample): a single `PutRune` at the bottom-right corner of a
fresh 1×1 terminal leaves the cursor row equal to `height`, outside the
claimed `[0, height)` range — the scroll is deferred, not performed. -/
theorem putRune_corner_cursor_out_of_bounds :
    ((NewVirtualTerminal 1 1).PutRune 72).cursorY = 1 ∧
    ((NewVirtualTerminal 1 1).PutRune 72).height = 1 ∧
    ¬ ((NewVirtualTerminal 1 1).PutRune 72).cursorY <
        ((NewVirtualTerminal 1 1).PutRune 72).height := by
  decide

/-- C1 (amended): every operation sequence on a freshly created terminal
with positive dimensions (resizes targeting positive dimensions) either
completes with the cursor column within `[0, width)` and the cursor row
within `[0, height]` — `cursorY = height` occurring transiently after a
wrap at the bottom-right corner, with the scroll deferred to the next
`PutRune` — or aborts in the CSI-K panic; printing at the last column of a
row strictly above the bottom does move the cursor to column 0 of the next
row; and the panic is reachable: on a 1×1 terminal, a rune into the corner
followed by `ESC [ K` crashes (Go index-out-of-range on
`cells[cursorY]` with `cursorY = height`). -/
theorem cursor_stays_in_relaxed_bounds (w h : Int) (hw : 1 ≤ w) (hh : 1 ≤ h)
    (ops : List VTOp) (hops : ∀ op ∈ ops, op.wellSized = true) :
    (∀ vt' : VirtualTerminal,
      applyOps (NewVirtualTerminal w h) ops = some vt' → cursorInv vt') ∧
    (∀ (vt : VirtualTerminal) (r : Nat), cursorInv vt → vt.cursorX = vt.width - 1 →
      vt.cursorY < vt.height →
      (vt.PutRune r).cursorX = 0 ∧ (vt.PutRune r).cursorY = vt.cursorY + 1) ∧
    Parse (NewVirtualTerminal 1 1) [97, 27, 91, 75] = none := by
  refine ⟨fun vt' hres =>
    cursorInv_applyOps (NewVirtualTerminal w h) vt' ops hops hres (cursorInv_new w h hw hh),
    ?_, by decide⟩
  intro vt r hinv hx hy
  obtain ⟨hx0, hxw, hy0, hyh, hw1, hh1⟩ := hinv
  unfold VirtualTerminal.PutRune
  dsimp only
  split_ifs
  all_goals simp_all [setCell, VirtualTerminal.scroll]
  all_goals omega

/-- Witness for C1: the amended bound instantiated on a 2×2 terminal and a
single printed rune (which completes without panicking). -/
theorem cursor_stays_in_relaxed_bounds_witness :
    (1 : Int) ≤ 2 ∧ VTOp.wellSized (VTOp.putRune 72) = true ∧
    cursorInv ((applyOps (NewVirtualTerminal 2 2) [VTOp.putRune 72]).getD
      (NewVirtualTerminal 2 2)) :=
  ⟨by norm_num, by decide,
   (cursor_stays_in_relaxed_bounds 2 2 (by norm_num) (by norm_num) [VTOp.putRune 72]
     (by decide)).1 _ (by decide)⟩

/-- C2: starting an idle instance with a successful spawn succeeds, ends in
`Running`, and emits exactly the two state-change events `Idle→Starting` and
`Starting→Running`; a second `StartInstance` while running returns the
"already running" error and emits nothing. -/
theorem startInstance_idle_two_transitions (inst : MInstance)
    (h : inst.state = InstanceState.stateIdle) :
    (StartInstance true inst).1 = StartResult.ok ∧
    (StartInstance true inst).2.1.state = InstanceState.stateRunning ∧
    (StartInstance true inst).2.2 =
      [MEvent.processStateChange .stateIdle .stateStarting,
       MEvent.processStateChange .stateStarting .stateRunning] ∧
    (StartInstance true (StartInstance true inst).2.1).1 = StartResult.errAlreadyRunning ∧
    (StartInstance true (StartInstance true inst).2.1).2.2 = [] := by
  simp [StartInstance, h]

/-- Witness for C2 on a concrete idle instance. -/
theorem startInstance_idle_two_transitions_witness :
    (MInstance.mk .stateIdle false false false).state = InstanceState.stateIdle ∧
    (StartInstance true (MInstance.mk .stateIdle false false false)).1 = StartResult.ok :=
  ⟨rfl, (startInstance_idle_two_transitions (MInstance.mk .stateIdle false false false) rfl).1⟩

/-- C3: when the PTY spawn fails inside `StartInstance` (on any instance
that passes the not-already-running check), the call returns the spawn
error, a process-error event is emitted on the event channel, and the
instance ends in `Crashed` (in particular not `Idle` and not `Stopped`). -/
theorem startInstance_spawn_failure_dual_report (inst : MInstance)
    (h : inst.state ≠ InstanceState.stateRunning) :
    (StartInstance false inst).1 = StartResult.errSpawn ∧
    MEvent.processError ∈ (StartInstance false inst).2.2 ∧
    (StartInstance false inst).2.1.state = InstanceState.stateCrashed ∧
    (StartInstance false inst).2.1.state ≠ InstanceState.stateIdle ∧
    (StartInstance false inst).2.1.state ≠ InstanceState.stateStopped := by
  simp [StartInstance, h]

/-- Witness for C3 on a concrete idle instance. -/
theorem startInstance_spawn_failure_dual_report_witness :
    (MInstance.mk .stateIdle false false false).state ≠ InstanceState.stateRunning ∧
    (StartInstance false (MInstance.mk .stateIdle false false false)).1 = StartResult.errSpawn :=
  ⟨by decide,
   (startInstance_spawn_failure_dual_report (MInstance.mk .stateIdle false false false)
     (by decide)).1⟩

/-- C4: splitting any byte sequence at any position and feeding the two
halves through `Parse` in order leaves the terminal (grid, cursor,
scrollback, SGR and parser state — the whole state, including whether a
panic occurred) exactly as one `Parse` of the whole sequence would; the
parser keeps its state between calls. -/
theorem parse_split_independence (vt : VirtualTerminal) (s : List Nat) (i : Nat) :
    ((Parse vt (s.take i)).bind fun vt1 => Parse vt1 (s.drop i)) = Parse vt s := by
  rw [← Parse_append, List.take_append_drop]

/-- C5: the scrollback never exceeds the capacity 10000 on any operation
sequence from a fresh terminal; each `scroll` updates the scrollback exactly
by `pushEvict` (evict oldest when full, append the evicted top line); and
pushing any sequence of evicted lines against capacity `cap` retains exactly
the last `cap` of them in eviction order. -/
theorem scrollback_bounded_and_eviction_order :
    (∀ (w h : Int) (ops : List VTOp) (vt' : VirtualTerminal),
      applyOps (NewVirtualTerminal w h) ops = some vt' → vt'.scrollback.length ≤ 10000) ∧
    (∀ vt : VirtualTerminal,
      vt.scroll.scrollback = pushEvict vt.maxScrollback vt.scrollback (vt.cells.headD [])) ∧
    (∀ (cap : Nat) (ls : List (List Cell)), 1 ≤ cap →
      ls.foldl (pushEvict cap) [] = ls.drop (ls.length - cap)) := by
  refine ⟨?_, fun vt => scroll_scrollback vt, ?_⟩
  · intro w h ops vt' hres
    have hb := sbBound_applyOps (NewVirtualTerminal w h) vt' ops hres ⟨Nat.zero_le _, rfl⟩
    obtain ⟨h1, h2⟩ := hb
    omega
  · intro cap ls hc
    have h := pushEvict_foldl cap hc [] (by simp) ls
    simpa using h

/-- Witness for C5: pushing three lines against capacity 2 keeps the last
two, in order, and a completed empty run respects the bound. -/
theorem scrollback_bounded_and_eviction_order_witness :
    1 ≤ 2 ∧
    ([[], [], []] : List (List Cell)).foldl (pushEvict 2) [] = [[], []] ∧
    (NewVirtualTerminal 2 2).scrollback.length ≤ 10000 :=
  ⟨by norm_num,
   by rw [scrollback_bounded_and_eviction_order.2.2 2 [[], [], []] (by norm_num)]; rfl,
   scrollback_bounded_and_eviction_order.1 2 2 [] (NewVirtualTerminal 2 2) rfl⟩

/-- C6 (code_bug evaluation): feeding `"\x1b[31mHELLO\x1b[0m\n"` to a fresh
80×24 terminal does put H,E,L,L,O into columns 0–4 of row 0 and ends with
the cursor at (0,1), but all five cells keep the default foreground:
`handleCSI` ignores the SGR 31 parameter, so no cell is marked red. -/
theorem scenarioB_red_foreground_missing :
    ((Parse (NewVirtualTerminal 80 24) scenarioB).map fun vt =>
      ((cellAt vt 0 0).rune, (cellAt vt 0 1).rune, (cellAt vt 0 2).rune,
       (cellAt vt 0 3).rune, (cellAt vt 0 4).rune)) = some (72, 69, 76, 76, 79) ∧
    ((Parse (NewVirtualTerminal 80 24) scenarioB).map fun vt =>
      (vt.cursorX, vt.cursorY)) = some (0, 1) ∧
    ((Parse (NewVirtualTerminal 80 24) scenarioB).map fun vt =>
      ((cellAt vt 0 0).foreground, (cellAt vt 0 1).foreground, (cellAt vt 0 2).foreground,
       (cellAt vt 0 3).foreground, (cellAt vt 0 4).foreground)) =
      some (ColorDefault, ColorDefault, ColorDefault, ColorDefault, ColorDefault) ∧
    ColorDefault ≠ ColorRed := by
  decide

/-- C7 (counterexample): the JSON API path checks only that the decoded
input is positive and passes the decoded output unchecked, so a single
`ParseOutput` on `a chunk decoding to input_tokens 1, output_tokens -5`
drives the output counter of a fresh tracker from 0 down to -5 — a
`ParseOutput` call does decrement a counter. -/
theorem api_negative_output_decrements :
    (runParse TokenUsage.zero [ParseOutcome.matchedAPI 1 (-5)]).outputTokens <
      TokenUsage.zero.outputTokens ∧
    (runParse TokenUsage.zero [ParseOutcome.matchedAPI 1 (-5)]).outputTokens = -5 := by
  decide

/-- C7 (amended): across any sequence of `ParseOutput` effects the input
counter never decreases (every updating path requires a parsed or positive
input); the output counter never decreases provided no call is an
API-format match with a negative decoded output (the digit-regex paths
cannot be negative); the total always equals input + output (given it did
initially — true of the zero value); and `Reset` zeroes input, output and
total exactly. -/
theorem token_counters_monotone_and_reset (u : TokenUsage) (calls : List ParseOutcome)
    (htotal : u.totalTokens = u.inputTokens + u.outputTokens) :
    (∀ i : Nat,
      (runParse u (calls.take i)).inputTokens ≤ (runParse u (calls.take (i + 1))).inputTokens) ∧
    ((∀ c ∈ calls, c.outputNonneg = true) → ∀ i : Nat,
      (runParse u (calls.take i)).outputTokens ≤ (runParse u (calls.take (i + 1))).outputTokens) ∧
    (∀ i : Nat, (runParse u (calls.take i)).totalTokens =
      (runParse u (calls.take i)).inputTokens + (runParse u (calls.take i)).outputTokens) ∧
    (TokenTracker.Reset u).inputTokens = 0 ∧
    (TokenTracker.Reset u).outputTokens = 0 ∧
    (TokenTracker.Reset u).totalTokens = 0 := by
  refine ⟨?_, ?_, ?_, rfl, rfl, rfl⟩
  · intro i
    rw [runParse_take_succ]
    cases hcell : calls[i]? with
    | none => exact le_refl _
    | some c => exact applyParse_input_le _ c
  · intro hnn i
    rw [runParse_take_succ]
    cases hcell : calls[i]? with
    | none => exact le_refl _
    | some c =>
        have hmem : c ∈ calls := by
          obtain ⟨hn, rfl⟩ := List.getElem?_eq_some.mp hcell
          exact List.getElem_mem hn
        exact applyParse_output_le _ c (hnn c hmem)
  · intro i
    exact runParse_total u (calls.take i) htotal

/-- Witness for C7: one digit-matched `ParseOutput` call on a fresh
tracker, exercising both monotonicity conjuncts. -/
theorem token_counters_monotone_and_reset_witness :
    TokenUsage.zero.totalTokens = TokenUsage.zero.inputTokens + TokenUsage.zero.outputTokens ∧
    (runParse TokenUsage.zero ([ParseOutcome.matched 100 200].take 0)).inputTokens ≤
      (runParse TokenUsage.zero ([ParseOutcome.matched 100 200].take 1)).inputTokens ∧
    (runParse TokenUsage.zero ([ParseOutcome.matched 100 200].take 0)).outputTokens ≤
      (runParse TokenUsage.zero ([ParseOutcome.matched 100 200].take 1)).outputTokens :=
  ⟨rfl,
   (token_counters_monotone_and_reset TokenUsage.zero [ParseOutcome.matched 100 200] rfl).1 0,
   (token_counters_monotone_and_reset TokenUsage.zero [ParseOutcome.matched 100 200] rfl).2.1
     (by decide) 0⟩

/-- C8: growing or shrinking, `Resize` keeps every cell of the overlapping
top-left `min` region unchanged (which for `w2 ≥ w1, h2 ≥ h1` is the whole
original region), clamps the cursor into the new bounds, and leaves the
scrollback untouched. -/
theorem resize_preserves_region_cursor_scrollback (vt : VirtualTerminal) (w2 h2 : Int)
    (hw : 1 ≤ w2) (hh : 1 ≤ h2) (hx : 0 ≤ vt.cursorX) (hy : 0 ≤ vt.cursorY) :
    (∀ i j : Nat, (i : Int) < min vt.height h2 → (j : Int) < min vt.width w2 →
      cellAt (vt.Resize w2 h2) i j = cellAt vt i j) ∧
    0 ≤ (vt.Resize w2 h2).cursorX ∧ (vt.Resize w2 h2).cursorX < w2 ∧
    0 ≤ (vt.Resize w2 h2).cursorY ∧ (vt.Resize w2 h2).cursorY < h2 ∧
    (vt.Resize w2 h2).scrollback = vt.scrollback := by
  refine ⟨fun i j hi hj => cellAt_Resize vt w2 h2 i j hi hj, ?_, ?_, ?_, ?_, rfl⟩ <;>
    (unfold VirtualTerminal.Resize; dsimp only; split_ifs <;> omega)

/-- Witness for C8: growing a fresh 2×2 terminal to 3×3. -/
theorem resize_preserves_region_cursor_scrollback_witness :
    (1 : Int) ≤ 3 ∧ (0 : Int) ≤ (NewVirtualTerminal 2 2).cursorX ∧
    cellAt ((NewVirtualTerminal 2 2).Resize 3 3) 1 1 = cellAt (NewVirtualTerminal 2 2) 1 1 ∧
    ((NewVirtualTerminal 2 2).Resize 3 3).scrollback = (NewVirtualTerminal 2 2).scrollback :=
  ⟨by norm_num, by decide,
   (resize_preserves_region_cursor_scrollback (NewVirtualTerminal 2 2) 3 3 (by norm_num)
     (by norm_num) (by decide) (by decide)).1 1 1 (by decide) (by decide),
   (resize_preserves_region_cursor_scrollback (NewVirtualTerminal 2 2) 3 3 (by norm_num)
     (by norm_num) (by decide) (by decide)).2.2.2.2.2⟩

/-- C9 (counterexample): on a width-10 terminal with the cursor at column 8,
a tab leaves the cursor at column 8 — it is not moved to the last valid
column 9, contrary to the claimed clamping. -/
theorem tab_at_right_edge_does_not_clamp :
    ((parseByte ((NewVirtualTerminal 10 2).MoveCursor 8 0) 9).map
      VirtualTerminal.cursorX) = some 8 ∧
    (8 : Int) ≠ 9 := by
  decide

/-- C9 (amended): in the parser's normal state a tab advances the cursor to
the next multiple-of-8 column only when that column is strictly less than
the terminal width; otherwise the cursor does not move at all (so it is
never pushed past the last column, but neither is it clamped to it). -/
theorem tab_advances_only_below_width (vt : VirtualTerminal)
    (hs : vt.parser.state = parseState.stateNormal) :
    ((parseByte vt 9).map VirtualTerminal.cursorX) =
      some (if (vt.cursorX / 8 + 1) * 8 < vt.width then (vt.cursorX / 8 + 1) * 8
            else vt.cursorX) ∧
    ((parseByte vt 9).map VirtualTerminal.cursorY) = some vt.cursorY := by
  simp only [parseByte, hs]
  norm_num
  split_ifs <;> exact ⟨⟨_, rfl, rfl⟩, _, rfl, rfl⟩

/-- Witness for C9 on a fresh 10×2 terminal (tab from column 0 reaches 8). -/
theorem tab_advances_only_below_width_witness :
    (NewVirtualTerminal 10 2).parser.state = parseState.stateNormal ∧
    ((parseByte (NewVirtualTerminal 10 2) 9).map VirtualTerminal.cursorX) =
      some (if ((NewVirtualTerminal 10 2).cursorX / 8 + 1) * 8 < (NewVirtualTerminal 10 2).width
            then ((NewVirtualTerminal 10 2).cursorX / 8 + 1) * 8
            else (NewVirtualTerminal 10 2).cursorX) :=
  ⟨rfl, (tab_advances_only_below_width (NewVirtualTerminal 10 2) rfl).1⟩

/-- C10: the `done` channel is created only in `AddInstance` — neither
`StartInstance` (either outcome) nor `StopInstance` re-creates it — and
after AddInstance; StartInstance; StopInstance; StartInstance (all
succeeding), a second `StopInstance` reaches `close` on the already-closed
channel: the stopped-and-restarted instance cannot be stopped again without
hitting that panic branch. -/
theorem done_channel_created_once_double_stop_panics :
    (∀ (b : Bool) (inst : MInstance),
      (StartInstance b inst).2.1.doneCreated = inst.doneCreated ∧
      (StartInstance b inst).2.1.doneClosed = inst.doneClosed) ∧
    (∀ inst : MInstance, (StopInstance inst).2.1.doneCreated = inst.doneCreated) ∧
    (AddInstance (MInstance.mk .stateIdle false false false)).1.doneCreated = true ∧
    ((StopInstance (StartInstance true (StopInstance (StartInstance true
        (AddInstance (MInstance.mk .stateIdle false false false)).1).2.1).2.1).2.1).1 =
      StopResult.panicClosedChannel ∧
     (StartInstance true (AddInstance (MInstance.mk .stateIdle false false false)).1).1 =
       StartResult.ok ∧
     (StopInstance (StartInstance true
        (AddInstance (MInstance.mk .stateIdle false false false)).1).2.1).1 = StopResult.ok ∧
     (StartInstance true (StopInstance (StartInstance true
        (AddInstance (MInstance.mk .stateIdle false false false)).1).2.1).2.1).1 =
       StartResult.ok) := by
  refine ⟨startInstance_done_fields, stopInstance_doneCreated, rfl, ?_⟩
  decide

end Agentree
